import Mathlib

/-!
Verification of the job-platform repository's client/server glue logic.

The development shallowly embeds:
* the browser client's JSON-through-localStorage auth helpers
  (`isAuthenticated`, `getCurrentUser`, `setAuth`, `clearAuth`),
* the response interceptor's error classification and its 401 side effects,
* the `apiWithRetry` linear-backoff retry loop,
* the server bootstrap's degraded-start policy (`connectDB`, `startServer`)
  and the `/api/health` handler.

JavaScript's built-in `JSON.stringify` / `JSON.parse` pair is modelled by an
executable serializer and parser over a `Json` value type (numbers restricted
to integers, string escaping restricted to quote and backslash; enough to
express the storage round trip the client relies on).  Asynchronous calls are
modelled as values of `Except`; wall-clock waits are recorded as the list of
requested delay durations.
-/

namespace JobPlatform

/-- A JSON value as stored by the client: the image of `JSON.stringify` on the
user objects the app persists.  Numbers are modelled as integers. -/
inductive Json where
  | null : Json
  | bool : Bool → Json
  | num : Int → Json
  | str : String → Json
  | arr : List Json → Json
  | obj : List (String × Json) → Json

/-- Decimal digit character for a value below ten. -/
def dChar (d : Nat) : Char := Char.ofNat (48 + d)

/-- Decimal digit characters of `n`, most significant first, in front of
`acc`; `fuel` only bounds the recursion and any `fuel > n` is enough. -/
def natDigitChars : Nat → Nat → List Char → List Char
  | 0, _, acc => acc
  | fuel + 1, n, acc =>
    if n < 10 then dChar n :: acc
    else natDigitChars fuel (n / 10) (dChar (n % 10) :: acc)

/-- Decimal digit characters of `n`, most significant first. -/
def natChars (n : Nat) : List Char := natDigitChars (n + 1) n []

/-- Character rendering of an integer: optional minus sign, then digits. -/
def intChars (n : Int) : List Char :=
  if n < 0 then '-' :: natChars n.natAbs else natChars n.natAbs

/-- JSON escaping of one string character (quote and backslash). -/
def escChar (c : Char) : List Char :=
  if c = '"' then ['\\', '"']
  else if c = '\\' then ['\\', '\\']
  else [c]

/-- JSON escaping of a string body. -/
def escBody : List Char → List Char
  | [] => []
  | c :: cs => escChar c ++ escBody cs

/-- Characters of a JSON string literal: quote, escaped body, quote. -/
def strChars (s : String) : List Char := '"' :: (escBody s.data ++ ['"'])

/-- The keyword rendering of the null value. -/
def nullChars : List Char := ['n', 'u', 'l', 'l']

/-- The keyword rendering of true. -/
def trueChars : List Char := ['t', 'r', 'u', 'e']

/-- The keyword rendering of false. -/
def falseChars : List Char := ['f', 'a', 'l', 's', 'e']

mutual

/-- Characters of the compact rendering of a value, as produced by
`JSON.stringify` (no insignificant whitespace). -/
def jChars : Json → List Char
  | .null => nullChars
  | .bool b => if b then trueChars else falseChars
  | .num n => intChars n
  | .str s => strChars s
  | .arr es => '[' :: (elemChars es ++ [']'])
  | .obj ms => '\x7b' :: (memberChars ms ++ ['\x7d'])

/-- Comma-separated renderings of array elements. -/
def elemChars : List Json → List Char
  | [] => []
  | [e] => jChars e
  | e :: e2 :: es => jChars e ++ ',' :: elemChars (e2 :: es)

/-- Comma-separated renderings of object members (`"key":value`). -/
def memberChars : List (String × Json) → List Char
  | [] => []
  | [(k, v)] => strChars k ++ ':' :: jChars v
  | (k, v) :: m2 :: ms => strChars k ++ ':' :: (jChars v ++ ',' :: memberChars (m2 :: ms))

end

/-- The model of `JSON.stringify` on the values the client stores. -/
def stringify (j : Json) : String := ⟨jChars j⟩

/-- Decimal digit test used by the number scanner. -/
def isDigitCh (c : Char) : Bool := 48 ≤ c.toNat && c.toNat ≤ 57

/-- Numeric value of a run of decimal digit characters. -/
def digitsVal (ds : List Char) : Nat :=
  ds.foldl (fun a c => a * 10 + (c.toNat - 48)) 0

/-- Scan an optional sign and a nonempty digit run into an integer. -/
def scanInt (cs : List Char) : Option (Int × List Char) :=
  match cs with
  | [] => none
  | c :: r =>
    if c = '-' then
      let ds := r.takeWhile isDigitCh
      if ds = [] then none
      else some (-(digitsVal ds : Int), r.dropWhile isDigitCh)
    else
      let ds := (c :: r).takeWhile isDigitCh
      if ds = [] then none
      else some ((digitsVal ds : Int), (c :: r).dropWhile isDigitCh)

/-- Scan a string body up to the closing quote, undoing the two escapes. -/
def scanStr (acc : List Char) : List Char → Option (String × List Char)
  | [] => none
  | c :: r =>
    if c = '\\' then
      match r with
      | [] => none
      | e :: r2 => if e = '"' ∨ e = '\\' then scanStr (e :: acc) r2 else none
    else if c = '"' then some (⟨acc.reverse⟩, r)
    else scanStr (c :: acc) r

mutual

/-- Parse one JSON value from the front of `cs`.  Structural on `fuel`; any
fuel above the input length is enough. -/
def parseV : Nat → List Char → Option (Json × List Char)
  | 0, _ => none
  | fuel + 1, cs =>
    match cs with
    | [] => none
    | c :: r =>
      if c = 'n' then
        match r with
        | 'u' :: 'l' :: 'l' :: r2 => some (.null, r2)
        | _ => none
      else if c = 't' then
        match r with
        | 'r' :: 'u' :: 'e' :: r2 => some (.bool true, r2)
        | _ => none
      else if c = 'f' then
        match r with
        | 'a' :: 'l' :: 's' :: 'e' :: r2 => some (.bool false, r2)
        | _ => none
      else if c = '"' then
        match scanStr [] r with
        | some (s, r2) => some (.str s, r2)
        | none => none
      else if c = '[' then
        match r with
        | [] => none
        | d :: r2 =>
          if d = ']' then some (.arr [], r2)
          else
            match parseElems fuel r with
            | some (es, r3) => some (.arr es, r3)
            | none => none
      else if c = '\x7b' then
        match r with
        | [] => none
        | d :: r2 =>
          if d = '\x7d' then some (.obj [], r2)
          else
            match parseMembers fuel r with
            | some (ms, r3) => some (.obj ms, r3)
            | none => none
      else if c = '-' ∨ isDigitCh c then
        match scanInt (c :: r) with
        | some (n, r2) => some (.num n, r2)
        | none => none
      else none

/-- Parse one or more comma-separated values and the closing bracket. -/
def parseElems : Nat → List Char → Option (List Json × List Char)
  | 0, _ => none
  | fuel + 1, cs =>
    match parseV fuel cs with
    | none => none
    | some (v, r) =>
      match r with
      | ',' :: r2 =>
        match parseElems fuel r2 with
        | some (vs, r3) => some (v :: vs, r3)
        | none => none
      | ']' :: r2 => some ([v], r2)
      | _ => none

/-- Parse one or more comma-separated members and the closing brace. -/
def parseMembers : Nat → List Char → Option (List (String × Json) × List Char)
  | 0, _ => none
  | fuel + 1, cs =>
    match cs with
    | '"' :: r =>
      match scanStr [] r with
      | none => none
      | some (k, r1) =>
        match r1 with
        | ':' :: r2 =>
          match parseV fuel r2 with
          | none => none
          | some (v, r3) =>
            match r3 with
            | ',' :: r4 =>
              match parseMembers fuel r4 with
              | some (ms, r5) => some ((k, v) :: ms, r5)
              | none => none
            | '\x7d' :: r4 => some ([(k, v)], r4)
            | _ => none
        | _ => none
    | _ => none

end

/-- The model of `JSON.parse`: `none` is a thrown `SyntaxError` (the full
input must be consumed; trailing characters are rejected). -/
def jsonParse (s : String) : Option Json :=
  match parseV (s.length + 1) s.data with
  | some (j, []) => some j
  | _ => none

/-! ### Digit-level round trip -/

theorem dChar_toNat {d : Nat} (h : d < 10) : (dChar d).toNat = 48 + d := by
  interval_cases d <;> decide

theorem isDigitCh_dChar {d : Nat} (h : d < 10) : isDigitCh (dChar d) = true := by
  interval_cases d <;> decide

theorem natDigitChars_acc (fuel : Nat) :
    ∀ (n : Nat) (acc : List Char),
      natDigitChars fuel n acc = natDigitChars fuel n [] ++ acc := by
  induction fuel with
  | zero => intro n acc; simp [natDigitChars]
  | succ f ih =>
    intro n acc
    by_cases h : n < 10
    · simp [natDigitChars, h]
    · simp only [natDigitChars, if_neg h]
      rw [ih (n / 10) (dChar (n % 10) :: acc), ih (n / 10) [dChar (n % 10)]]
      simp

theorem natDigitChars_spec (fuel : Nat) :
    ∀ n : Nat, n < fuel →
      (∀ c ∈ natDigitChars fuel n [], isDigitCh c = true) ∧
      natDigitChars fuel n [] ≠ [] ∧
      digitsVal (natDigitChars fuel n []) = n := by
  induction fuel with
  | zero => intro n h; omega
  | succ f ih =>
    intro n hn
    by_cases h : n < 10
    · refine ⟨?_, by simp [natDigitChars, h], ?_⟩
      · intro c hc
        simp only [natDigitChars, if_pos h, List.mem_singleton] at hc
        subst hc; exact isDigitCh_dChar h
      · simp [natDigitChars, h, digitsVal, dChar_toNat h]
    · have hdiv : n / 10 < f := by omega
      obtain ⟨hdig, hne, hval⟩ := ih (n / 10) hdiv
      have hrw : natDigitChars (f + 1) n []
          = natDigitChars f (n / 10) [] ++ [dChar (n % 10)] := by
        simp only [natDigitChars, if_neg h]
        exact natDigitChars_acc f (n / 10) [dChar (n % 10)]
      refine ⟨?_, ?_, ?_⟩
      · intro c hc
        rw [hrw, List.mem_append, List.mem_singleton] at hc
        rcases hc with hc | hc
        · exact hdig c hc
        · subst hc; exact isDigitCh_dChar (Nat.mod_lt n (by omega))
      · rw [hrw]; simp
      · rw [hrw]
        unfold digitsVal
        rw [List.foldl_append]
        have := dChar_toNat (Nat.mod_lt n (show 0 < 10 by omega))
        simp only [List.foldl_cons, List.foldl_nil, this]
        unfold digitsVal at hval
        rw [hval]
        omega

theorem natChars_digits (n : Nat) : ∀ c ∈ natChars n, isDigitCh c = true :=
  (natDigitChars_spec (n + 1) n (by omega)).1

theorem natChars_ne_nil (n : Nat) : natChars n ≠ [] :=
  (natDigitChars_spec (n + 1) n (by omega)).2.1

theorem digitsVal_natChars (n : Nat) : digitsVal (natChars n) = n :=
  (natDigitChars_spec (n + 1) n (by omega)).2.2

/-- A digit character is none of the characters the value scanner
dispatches on. -/
theorem isDigitCh_ne_special {c : Char} (h : isDigitCh c = true) :
    c ≠ '-' ∧ c ≠ 'n' ∧ c ≠ 't' ∧ c ≠ 'f' ∧ c ≠ '"' ∧ c ≠ '[' ∧ c ≠ ']' ∧
      c ≠ '\x7b' ∧ c ≠ '\x7d' ∧ c ≠ ',' ∧ c ≠ ':' := by
  and_intros <;> (intro hc; subst hc; exact absurd h (by decide))

/-- No character of `rest` can extend a digit run that `rest` follows. -/
def noDigitHead : List Char → Prop
  | [] => True
  | c :: _ => isDigitCh c = false

theorem takeWhile_digits_append {ds rest : List Char}
    (hds : ∀ c ∈ ds, isDigitCh c = true) (hrest : noDigitHead rest) :
    (ds ++ rest).takeWhile isDigitCh = ds ∧
      (ds ++ rest).dropWhile isDigitCh = rest := by
  induction ds with
  | nil =>
    cases rest with
    | nil => simp
    | cons c t =>
      simp only [noDigitHead] at hrest
      simp [List.takeWhile_cons, List.dropWhile_cons, hrest]
  | cons d t ih =>
    have hd : isDigitCh d = true := hds d (by simp)
    obtain ⟨h1, h2⟩ := ih (fun c hc => hds c (by simp [hc]))
    simp [List.takeWhile_cons, List.dropWhile_cons, hd, h1, h2]

theorem natChars_cons (n : Nat) :
    ∃ c t, natChars n = c :: t ∧ isDigitCh c = true := by
  cases h : natChars n with
  | nil => exact absurd h (natChars_ne_nil n)
  | cons c t =>
    refine ⟨c, t, rfl, natChars_digits n c ?_⟩
    rw [h]; simp

theorem scanInt_intChars (n : Int) (rest : List Char) (hrest : noDigitHead rest) :
    scanInt (intChars n ++ rest) = some (n, rest) := by
  obtain ⟨htk, hdr⟩ := takeWhile_digits_append (natChars_digits n.natAbs) hrest
  by_cases hn : n < 0
  · have harg : intChars n ++ rest = '-' :: (natChars n.natAbs ++ rest) := by
      simp [intChars, hn]
    rw [harg]
    simp only [scanInt, if_true]
    simp only [htk, hdr, if_neg (natChars_ne_nil n.natAbs), digitsVal_natChars,
      Option.some.injEq, Prod.mk.injEq]
    exact ⟨by omega, trivial⟩
  · have harg : intChars n ++ rest = natChars n.natAbs ++ rest := by
      simp [intChars, hn]
    obtain ⟨c, t, hct, hcdig⟩ := natChars_cons n.natAbs
    have hcm : c ≠ '-' := (isDigitCh_ne_special hcdig).1
    rw [harg, hct, List.cons_append]
    rw [hct, List.cons_append] at htk hdr
    simp only [scanInt]
    rw [if_neg hcm]
    simp only [htk, hdr, if_neg (List.cons_ne_nil c t), digitsVal_natChars]
    have hv : digitsVal (c :: t) = n.natAbs := by rw [← hct]; exact digitsVal_natChars _
    simp only [hv, Option.some.injEq, Prod.mk.injEq]
    exact ⟨by omega, trivial⟩

/-! ### String-level round trip -/

theorem scanStr_escBody (l : List Char) :
    ∀ acc rest : List Char,
      scanStr acc (escBody l ++ '"' :: rest) = some (⟨acc.reverse ++ l⟩, rest) := by
  induction l with
  | nil =>
    intro acc rest
    simp only [escBody, List.nil_append]
    rw [scanStr.eq_def]
    simp
  | cons c l ih =>
    intro acc rest
    by_cases hq : c = '"'
    · subst hq
      simp only [escBody, escChar, if_pos rfl, List.cons_append, List.nil_append,
        List.append_assoc]
      rw [scanStr.eq_def]
      simp [ih]
    · by_cases hb : c = '\\'
      · subst hb
        simp only [escBody, escChar, if_neg hq, if_pos rfl, List.cons_append,
          List.nil_append, List.append_assoc]
        rw [scanStr.eq_def]
        simp [ih]
      · simp only [escBody, escChar, if_neg hq, if_neg hb, List.cons_append,
          List.nil_append, List.singleton_append]
        rw [scanStr.eq_def]
        simp [hb, hq, ih]

theorem scanStr_strBody (s : String) (rest : List Char) :
    scanStr [] (escBody s.data ++ '"' :: rest) = some (s, rest) := by
  rw [scanStr_escBody]
  rfl

/-! ### Structural facts about the rendering -/

theorem jChars_head (j : Json) : ∃ c t, jChars j = c :: t ∧ c ≠ ']' := by
  cases j with
  | null => exact ⟨'n', ['u', 'l', 'l'], by simp [jChars, nullChars], by decide⟩
  | bool b =>
    cases b with
    | true => exact ⟨'t', ['r', 'u', 'e'], by simp [jChars, trueChars], by decide⟩
    | false => exact ⟨'f', ['a', 'l', 's', 'e'], by simp [jChars, falseChars], by decide⟩
  | str s => exact ⟨'"', escBody s.data ++ ['"'], by simp [jChars, strChars], by decide⟩
  | arr es => exact ⟨'[', elemChars es ++ [']'], by simp [jChars], by decide⟩
  | obj ms => exact ⟨'\x7b', memberChars ms ++ ['\x7d'], by simp [jChars], by decide⟩
  | num n =>
    by_cases hn : n < 0
    · exact ⟨'-', natChars n.natAbs, by simp [jChars, intChars, hn], by decide⟩
    · obtain ⟨c, t, hct, hcdig⟩ := natChars_cons n.natAbs
      exact ⟨c, t, by simp [jChars, intChars, hn, hct],
        (isDigitCh_ne_special hcdig).2.2.2.2.2.2.1⟩

theorem jChars_ne_nil (j : Json) : jChars j ≠ [] := by
  obtain ⟨c, t, hct, _⟩ := jChars_head j
  rw [hct]; simp

/-- One-step unfolding of the parser on an opening bracket. -/
theorem parseV_arr_step (fuel : Nat) (r : List Char) :
    parseV (fuel + 1) ('[' :: r)
      = (match r with
         | [] => none
         | d :: r2 =>
           if d = ']' then some (.arr [], r2)
           else
             match parseElems fuel r with
             | some (es, r3) => some (.arr es, r3)
             | none => none) := by
  simp [parseV]

/-- One-step unfolding of the parser on an opening brace. -/
theorem parseV_obj_step (fuel : Nat) (r : List Char) :
    parseV (fuel + 1) ('\x7b' :: r)
      = (match r with
         | [] => none
         | d :: r2 =>
           if d = '\x7d' then some (.obj [], r2)
           else
             match parseMembers fuel r with
             | some (ms, r3) => some (.obj ms, r3)
             | none => none) := by
  simp [parseV]

/-- Joint round-trip statement for values, array tails and object tails,
by induction on the parsing fuel. -/
theorem parse_stringify_aux : ∀ fuel : Nat,
    (∀ (j : Json) (rest : List Char), noDigitHead rest → (jChars j).length < fuel →
      parseV fuel (jChars j ++ rest) = some (j, rest)) ∧
    (∀ (e : Json) (es : List Json) (rest : List Char),
      (elemChars (e :: es)).length + 1 < fuel →
      parseElems fuel (elemChars (e :: es) ++ ']' :: rest) = some (e :: es, rest)) ∧
    (∀ (k : String) (v : Json) (ms : List (String × Json)) (rest : List Char),
      (memberChars ((k, v) :: ms)).length + 1 < fuel →
      parseMembers fuel (memberChars ((k, v) :: ms) ++ '\x7d' :: rest)
        = some ((k, v) :: ms, rest)) := by
  intro fuel
  induction fuel with
  | zero =>
    refine ⟨?_, ?_, ?_⟩
    · intro j rest _ hlen; omega
    · intro e es rest hlen; omega
    · intro k v ms rest hlen; omega
  | succ f ih =>
    obtain ⟨ihV, ihE, ihM⟩ := ih
    refine ⟨?_, ?_, ?_⟩
    · intro j rest hrest hlen
      cases j with
      | null =>
        simp only [jChars, nullChars, List.cons_append, List.nil_append]
        simp [parseV]
      | bool b =>
        cases b with
        | true =>
          simp only [jChars, trueChars, if_pos rfl, List.cons_append, List.nil_append]
          simp [parseV]
        | false =>
          simp only [jChars, falseChars, Bool.false_eq_true, if_neg, List.cons_append,
            List.nil_append]
          simp [parseV]
      | num n =>
        have hs := scanInt_intChars n rest hrest
        by_cases hn : n < 0
        · have harg : jChars (.num n) ++ rest = '-' :: (natChars n.natAbs ++ rest) := by
            simp [jChars, intChars, hn]
          rw [harg]
          rw [show intChars n ++ rest = '-' :: (natChars n.natAbs ++ rest) from by
            simp [intChars, hn]] at hs
          simp [parseV, hs]
        · obtain ⟨c, t, hct, hcdig⟩ := natChars_cons n.natAbs
          obtain ⟨h1, h2, h3, h4, h5, h6, h7, h8, h9, h10, h11⟩ :=
            isDigitCh_ne_special hcdig
          have harg : jChars (.num n) ++ rest = c :: (t ++ rest) := by
            simp [jChars, intChars, hn, hct]
          rw [harg]
          rw [show intChars n ++ rest = c :: (t ++ rest) from by
            simp [intChars, hn, hct]] at hs
          simp [parseV, h2, h3, h4, h5, h6, h8, hcdig, hs]
      | str s =>
        have harg : jChars (.str s) ++ rest = '"' :: (escBody s.data ++ '"' :: rest) := by
          simp [jChars, strChars]
        rw [harg]
        simp [parseV, scanStr_strBody s rest]
      | arr es =>
        cases es with
        | nil =>
          simp only [jChars, elemChars, List.nil_append, List.cons_append]
          simp [parseV]
        | cons e es =>
          have hlen' : (elemChars (e :: es)).length + 1 < f := by
            simp only [jChars, List.length_cons, List.length_append,
              List.length_singleton] at hlen
            omega
          obtain ⟨c, t, hct, hcne⟩ := jChars_head e
          obtain ⟨u, hu⟩ : ∃ u, elemChars (e :: es) ++ ']' :: rest = c :: u := by
            cases es with
            | nil => exact ⟨t ++ ']' :: rest, by simp [elemChars, hct]⟩
            | cons e2 es2 =>
              exact ⟨t ++ ',' :: elemChars (e2 :: es2) ++ ']' :: rest, by
                simp [elemChars, hct]⟩
          have harg : jChars (.arr (e :: es)) ++ rest
              = '[' :: (elemChars (e :: es) ++ ']' :: rest) := by
            simp [jChars]
          rw [harg, parseV_arr_step, hu]
          simp only []
          rw [if_neg hcne, ← hu, ihE e es rest hlen']
      | obj ms =>
        cases ms with
        | nil =>
          simp only [jChars, memberChars, List.nil_append, List.cons_append]
          simp [parseV]
        | cons m ms =>
          obtain ⟨k, v⟩ := m
          have hlen' : (memberChars ((k, v) :: ms)).length + 1 < f := by
            simp only [jChars, List.length_cons, List.length_append,
              List.length_singleton] at hlen
            omega
          obtain ⟨u, hu⟩ : ∃ u, memberChars ((k, v) :: ms) ++ '\x7d' :: rest
              = '"' :: u := by
            cases ms with
            | nil =>
              exact ⟨(escBody k.data ++ ['"']) ++ ':' :: jChars v ++ '\x7d' :: rest, by
                simp [memberChars, strChars]⟩
            | cons m2 ms2 =>
              exact ⟨(escBody k.data ++ ['"'])
                  ++ ':' :: (jChars v ++ ',' :: memberChars (m2 :: ms2)) ++ '\x7d' :: rest, by
                simp [memberChars, strChars]⟩
          have harg : jChars (.obj ((k, v) :: ms)) ++ rest
              = '\x7b' :: (memberChars ((k, v) :: ms) ++ '\x7d' :: rest) := by
            simp [jChars]
          rw [harg, parseV_obj_step, hu]
          simp only []
          rw [if_neg (by decide : ¬('"' : Char) = '\x7d'), ← hu,
            ihM k v ms rest hlen']
    · intro e es rest hlen
      cases es with
      | nil =>
        have h1 : (jChars e).length < f := by
          simp only [elemChars, List.length_cons] at hlen
          omega
        simp only [elemChars]
        simp only [parseElems]
        rw [ihV e (']' :: rest) (by simp only [noDigitHead]; decide) h1]
        rfl
      | cons e2 es2 =>
        have hee : 1 ≤ (jChars e).length :=
          List.length_pos.mpr (jChars_ne_nil e)
        have h1 : (jChars e).length < f := by
          simp only [elemChars, List.length_append, List.length_cons] at hlen
          omega
        have h2 : (elemChars (e2 :: es2)).length + 1 < f := by
          simp only [elemChars, List.length_append, List.length_cons] at hlen
          omega
        simp only [elemChars, List.append_assoc, List.cons_append]
        simp only [parseElems]
        rw [ihV e (',' :: (elemChars (e2 :: es2) ++ ']' :: rest))
          (by simp only [noDigitHead]; decide) h1]
        simp only []
        rw [ihE e2 es2 rest h2]
    · intro k v ms rest hlen
      have hsk : (strChars k).length = (escBody k.data).length + 2 := by
        simp [strChars]
      have hvv : 1 ≤ (jChars v).length :=
        List.length_pos.mpr (jChars_ne_nil v)
      cases ms with
      | nil =>
        have h1 : (jChars v).length < f := by
          simp only [memberChars, List.length_append, List.length_cons, hsk] at hlen
          omega
        have harg : memberChars [(k, v)] ++ '\x7d' :: rest
            = '"' :: (escBody k.data ++ '"' :: (':' :: (jChars v ++ '\x7d' :: rest))) := by
          simp [memberChars, strChars]
        rw [harg]
        simp only [parseMembers]
        rw [scanStr_strBody k (':' :: (jChars v ++ '\x7d' :: rest))]
        simp only []
        rw [ihV v ('\x7d' :: rest) (by simp only [noDigitHead]; decide) h1]
        rfl
      | cons m2 ms2 =>
        obtain ⟨k2, v2⟩ := m2
        have h1 : (jChars v).length < f := by
          simp only [memberChars, List.length_append, List.length_cons, hsk] at hlen
          omega
        have h2 : (memberChars ((k2, v2) :: ms2)).length + 1 < f := by
          simp only [memberChars, List.length_append, List.length_cons, hsk] at hlen
          omega
        have harg : memberChars ((k, v) :: (k2, v2) :: ms2) ++ '\x7d' :: rest
            = '"' :: (escBody k.data ++ '"' :: (':' :: (jChars v
                ++ ',' :: (memberChars ((k2, v2) :: ms2) ++ '\x7d' :: rest)))) := by
          simp [memberChars, strChars]
        rw [harg]
        simp only [parseMembers]
        rw [scanStr_strBody k (':' :: (jChars v
          ++ ',' :: (memberChars ((k2, v2) :: ms2) ++ '\x7d' :: rest)))]
        simp only []
        rw [ihV v (',' :: (memberChars ((k2, v2) :: ms2) ++ '\x7d' :: rest))
          (by simp only [noDigitHead]; decide) h1]
        simp only []
        rw [ihM k2 v2 ms2 rest h2]

/-- The serialize/parse round trip through a string is the identity. -/
theorem jsonParse_stringify (j : Json) : jsonParse (stringify j) = some j := by
  have h := (parse_stringify_aux ((jChars j).length + 1)).1 j [] trivial (by omega)
  rw [List.append_nil] at h
  simp only [jsonParse, stringify]
  rw [show (⟨jChars j⟩ : String).length = (jChars j).length from rfl, h]

/-- The rendering of a value is never the empty string. -/
theorem stringify_ne_empty (j : Json) : stringify j ≠ "" := by
  obtain ⟨c, t, hct, _⟩ := jChars_head j
  intro h
  have hd : jChars j = [] := congrArg String.data h
  rw [hct] at hd
  exact List.noConfusion hd

/-! ### The client: storage state and auth helpers
(`src/frontend/src/utils/api.js`) -/

/-- The browser-side state the client code reads and writes: the two
localStorage entries (`token`, `user`), the axios instance's default
`Authorization` header, and the current `window.location` path.  `none`
models an absent key / absent header. -/
structure ClientState where
  token : Option String
  user : Option String
  authHeader : Option String
  path : String
deriving DecidableEq

/-- JS truthiness of a `localStorage.getItem` result: `null` and the empty
string are falsy, every other string is truthy. -/
def jsTruthy : Option String → Bool
  | none => false
  | some s => s ≠ ""

/-- `isAuthenticated()`: reads the token entry and double-negates it.
No other state is consulted, and no request is made. -/
def isAuthenticated (s : ClientState) : Bool := jsTruthy s.token

/-- `getCurrentUser()`: reads the user entry; a missing or falsy (empty)
value yields `null`, otherwise the value is parsed, with a parse failure
caught (and logged) to yield `null`. -/
def getCurrentUser (s : ClientState) : Option Json :=
  match s.user with
  | none => none
  | some userStr =>
    if userStr = "" then none
    else
      match jsonParse userStr with
      | some u => some u
      | none => none

/-- `setAuth(token, user)`: writes the token, the serialized user, and the
default `Authorization: Bearer` header. -/
def setAuth (t : String) (u : Json) (s : ClientState) : ClientState :=
  { s with
    token := some t
    user := some (stringify u)
    authHeader := some ("Bearer " ++ t) }

/-- `clearAuth()`: removes both storage entries and the default header. -/
def clearAuth (s : ClientState) : ClientState :=
  { s with token := none, user := none, authHeader := none }

/-! ### The response interceptor's rejection branch -/

/-- The part of an axios failure the interceptor inspects: `response` is the
server reply if one arrived, `requestMade` whether the request went out. -/
structure ErrResponse where
  status : Nat
  dataMessage : Option String
deriving DecidableEq

/-- An axios error object, as far as the interceptor looks at it. -/
structure AxiosError where
  response : Option ErrResponse
  requestMade : Bool
  message : String
deriving DecidableEq

/-- An observable side effect of the interceptor, in execution order. -/
inductive Effect where
  | removeItem : String → Effect
  | deleteAuthHeader : Effect
  | navigate : String → Effect
  | logError : String → Effect
deriving DecidableEq

/-- Does the character list start with the pattern? -/
def listStarts : List Char → List Char → Bool
  | [], _ => true
  | _ :: _, [] => false
  | p :: ps, c :: cs => p == c && listStarts ps cs

/-- Does the character list contain the pattern anywhere? -/
def listHasSub (pat : List Char) : List Char → Bool
  | [] => listStarts pat []
  | c :: t => listStarts pat (c :: t) || listHasSub pat t

/-- `String.prototype.includes(pat)` on `s`. -/
def strIncludes (s pat : String) : Bool := listHasSub pat.data s.data

/-- The rejection branch of the response interceptor: logs the failure,
classifies it (server reply with a status / request sent but unanswered /
local setup error), performs the 401 side effects, and settles.  The first
component lists the side effects in order; the second is the settled value
returned to the caller. -/
def respErrorHandler (err : AxiosError) (path : String) :
    List Effect × Except AxiosError Unit :=
  let classify : List Effect :=
    match err.response with
    | some resp =>
      if resp.status = 401 then
        [.removeItem "token", .removeItem "user", .deleteAuthHeader]
          ++ (if strIncludes path "/login" then [] else [.navigate "/login"])
      else if resp.status = 403 then
        [.logError "Access denied: You do not have permission for this action"]
      else if resp.status = 404 then [.logError "Resource not found"]
      else if resp.status = 500 then
        [.logError "Server error occurred. Please try again later."]
      else [.logError "Server error (other)"]
    | none =>
      if err.requestMade then
        [.logError "Network error: No response from server."]
      else [.logError "Request setup error"]
  (.logError "API Error" :: classify, Except.error err)

/-- State change performed by one interceptor effect. -/
def applyEffect (s : ClientState) : Effect → ClientState
  | .removeItem k =>
    if k = "token" then { s with token := none }
    else if k = "user" then { s with user := none }
    else s
  | .deleteAuthHeader => { s with authHeader := none }
  | .navigate dest => { s with path := dest }
  | .logError _ => s

/-- State change performed by a sequence of effects, in order. -/
def applyEffects (s : ClientState) (effs : List Effect) : ClientState :=
  effs.foldl applyEffect s

/-- Is the effect a navigation? -/
def isNavigate : Effect → Bool
  | .navigate _ => true
  | _ => false

/-- How many navigations a list of effects performs. -/
def countNav (effs : List Effect) : Nat := (effs.filter isNavigate).length

/-! ### The retry helper (`apiWithRetry`) -/

/-- How one run of the retried operation settles: success value, rejection,
or — when the loop body never runs — resolution with `undefined`. -/
inductive RetryOutcome (ε α : Type) where
  | ok : α → RetryOutcome ε α
  | err : ε → RetryOutcome ε α
  | undef : RetryOutcome ε α
deriving DecidableEq

/-- The `for (let attempt = 1; attempt <= maxRetries; attempt++)` loop of
`apiWithRetry`, entered at iteration `attempt`.  `remaining` is the number
of iterations the guard still admits, i.e. `maxRetries + 1 - attempt`, so
`remaining = 0` is exactly the guard `attempt <= maxRetries` failing; the
recursion is structural on it.  `apiCall` maps the (1-based) invocation
number to how that invocation settles.  Returns how the loop settles, how
many times `apiCall` was invoked, and the waits requested (in ms, in
order); the wait after a failed non-final attempt is `delay * attempt`. -/
def retryLoop (apiCall : Nat → Except ε α) (maxRetries delay : Nat) :
    Nat → Nat → RetryOutcome ε α × Nat × List Nat
  | _, 0 => (.undef, 0, [])
  | attempt, remaining + 1 =>
    match apiCall attempt with
    | .ok v => (.ok v, 1, [])
    | .error e =>
      if attempt = maxRetries then (.err e, 1, [])
      else
        let r := retryLoop apiCall maxRetries delay (attempt + 1) remaining
        (r.1, r.2.1 + 1, delay * attempt :: r.2.2)

/-- `apiWithRetry(apiCall, maxRetries, delay)` (source defaults
`maxRetries = 3`, `delay = 1000`). -/
def apiWithRetry (apiCall : Nat → Except ε α) (maxRetries delay : Nat) :
    RetryOutcome ε α × Nat × List Nat :=
  retryLoop apiCall maxRetries delay 1 maxRetries

/-! ### Server bootstrap and health endpoint (`backend/server.js`) -/

/-- A live database handle (`conn.connection`). -/
structure DbConnection where
  host : String
  dbName : String
deriving DecidableEq

/-- The mongoose error the connect catch-block inspects (`error.name`). -/
structure MongoErr where
  errName : String
  errMessage : String
deriving DecidableEq

/-- What the bootstrap does next: continue with an optional handle, or
terminate the process with an exit code. -/
inductive BootStep where
  | proceed : Option DbConnection → BootStep
  | exitProcess : Nat → BootStep
deriving DecidableEq

/-- `connectDB()`: awaits `mongoose.connect`; on success returns the
connection, on failure logs (with a server-selection or network hint) and
returns `null` — it never exits the process.  The `Except` argument is how
the underlying connection attempt settled; the second component is the log. -/
def connectDB (attempt : Except MongoErr DbConnection) : BootStep × List String :=
  match attempt with
  | .ok conn =>
    (.proceed (some conn),
      ["MongoDB Connected: " ++ conn.host, "Database: " ++ conn.dbName])
  | .error e =>
    let hints :=
      if e.errName = "MongooseServerSelectionError" then ["IP WHITELIST SOLUTION"]
      else if e.errName = "MongoNetworkError" then ["NETWORK SOLUTION"]
      else []
    (.proceed none,
      ["MongoDB connection error: " ++ e.errMessage] ++ hints
        ++ ["Server will start without database connection. Some features may not work."])

/-- The observable bootstrap result: the handle kept and whether
`app.listen` was reached. -/
structure ServerState where
  db : Option DbConnection
  listening : Bool
deriving DecidableEq

/-- `startServer()`: awaits `connectDB()` and then starts listening —
unconditionally, since `connectDB` never asks for an exit. -/
def startServer (attempt : Except MongoErr DbConnection) : ServerState :=
  match (connectDB attempt).1 with
  | .proceed db => { db := db, listening := true }
  | .exitProcess _ => { db := none, listening := false }

/-- The JSON body of `GET /api/health` (the timestamp field is omitted from
the model). -/
structure HealthBody where
  status : String
  message : String
  environment : String
  database : String
deriving DecidableEq

/-- The `/api/health` handler: always status 200, with the `database` field
computed from `mongoose.connection.readyState` as read when the request is
served (1 means connected). -/
def healthHandler (readyState : Nat) (nodeEnv : Option String) : Nat × HealthBody :=
  (200,
    { status := "OK"
      message := "Server is running"
      environment := nodeEnv.getD "development"
      database := if readyState = 1 then "Connected" else "Disconnected" })

/-! ### The claims -/

/-- C1: when the bootstrap's database connection attempt fails, the process
is not terminated — `connectDB` returns an absent handle and asks to
proceed, the server starts listening anyway, and `GET /api/health` answers
200 with `database = "Disconnected"`, computed from the connection state
passed in at request time. -/
theorem connect_failure_degraded_start (e : MongoErr) (rs : Nat)
    (env : Option String) (h : rs ≠ 1) :
    (connectDB (Except.error e)).1 = BootStep.proceed none ∧
    (startServer (Except.error e)).listening = true ∧
    (healthHandler rs env).1 = 200 ∧
    (healthHandler rs env).2.database = "Disconnected" := by
  refine ⟨rfl, rfl, rfl, ?_⟩
  simp [healthHandler, h]

/-- Witness for C1 at a concrete server-selection failure and the
disconnected ready state 0. -/
theorem connect_failure_degraded_start_witness :
    (connectDB (Except.error ⟨"MongooseServerSelectionError", "connect timeout"⟩)).1
        = BootStep.proceed none ∧
    (startServer (Except.error ⟨"MongooseServerSelectionError", "connect timeout"⟩)).listening
        = true ∧
    (healthHandler 0 none).1 = 200 ∧
    (healthHandler 0 none).2.database = "Disconnected" :=
  connect_failure_degraded_start ⟨"MongooseServerSelectionError", "connect timeout"⟩ 0 none
    (by decide)

/-- C2: an operation failing on its first two invocations and succeeding on
the third makes `apiWithRetry(op, 3, 100)` resolve with the success value,
after exactly 3 invocations and waits of 100 ms then 200 ms (linear in the
attempt number). -/
theorem retry_two_failures_then_success {ε α : Type} (op : Nat → Except ε α)
    (e1 e2 : ε) (v : α) (h1 : op 1 = Except.error e1)
    (h2 : op 2 = Except.error e2) (h3 : op 3 = Except.ok v) :
    apiWithRetry op 3 100 = (.ok v, 3, [100, 200]) := by
  simp [apiWithRetry, retryLoop, h1, h2, h3]

/-- Witness for C2: fail twice, succeed with 42 on the third call. -/
theorem retry_two_failures_then_success_witness :
    apiWithRetry (fun n => if n = 3 then (Except.ok 42 : Except Nat Nat)
      else Except.error n) 3 100 = (.ok 42, 3, [100, 200]) :=
  retry_two_failures_then_success _ 1 2 42 rfl rfl rfl

/-- C3: an operation failing on every invocation makes
`apiWithRetry(op, 3, 100)` reject with exactly the error of the third
invocation, and the operation is invoked exactly 3 times (never a 4th: the
result does not depend on the operation beyond invocation 3). -/
theorem retry_all_failures {ε α : Type} (op : Nat → Except ε α)
    (e1 e2 e3 : ε) (h1 : op 1 = Except.error e1)
    (h2 : op 2 = Except.error e2) (h3 : op 3 = Except.error e3) :
    apiWithRetry (α := α) op 3 100 = (.err e3, 3, [100, 200]) := by
  simp [apiWithRetry, retryLoop, h1, h2, h3]

/-- Witness for C3: every invocation fails with its invocation number. -/
theorem retry_all_failures_witness :
    apiWithRetry (α := Nat) (fun n => (Except.error n : Except Nat Nat)) 3 100
      = (.err 3, 3, [100, 200]) :=
  retry_all_failures _ 1 2 3 rfl rfl rfl

/-- C4: a 401 failure removes the token entry, the user entry and the
default auth header exactly once each, and navigates exactly once to
`/login` if and only if the current path does not contain `/login`
(zero navigations when it does). -/
theorem interceptor_401_effects (err : AxiosError) (resp : ErrResponse)
    (path : String) (hresp : err.response = some resp)
    (hstatus : resp.status = 401) :
    (respErrorHandler err path).1.count (.removeItem "token") = 1 ∧
    (respErrorHandler err path).1.count (.removeItem "user") = 1 ∧
    (respErrorHandler err path).1.count .deleteAuthHeader = 1 ∧
    countNav (respErrorHandler err path).1
      = (if strIncludes path "/login" then 0 else 1) ∧
    (respErrorHandler err path).1.count (.navigate "/login")
      = (if strIncludes path "/login" then 0 else 1) := by
  by_cases hp : strIncludes path "/login"
  · simp only [respErrorHandler, hresp, hstatus, if_pos hp]
    refine ⟨by decide, by decide, by decide, by decide, by decide⟩
  · simp only [respErrorHandler, hresp, hstatus, if_neg hp]
    refine ⟨by decide, by decide, by decide, by decide, by decide⟩

/-- Witness for C4 at a concrete 401 failure away from the login page. -/
theorem interceptor_401_effects_witness :
    (respErrorHandler ⟨some ⟨401, none⟩, true, "Request failed"⟩ "/jobs").1.count
        (.removeItem "token") = 1 ∧
    (respErrorHandler ⟨some ⟨401, none⟩, true, "Request failed"⟩ "/jobs").1.count
        (.removeItem "user") = 1 ∧
    (respErrorHandler ⟨some ⟨401, none⟩, true, "Request failed"⟩ "/jobs").1.count
        .deleteAuthHeader = 1 ∧
    countNav (respErrorHandler ⟨some ⟨401, none⟩, true, "Request failed"⟩ "/jobs").1
      = (if strIncludes "/jobs" "/login" then 0 else 1) ∧
    (respErrorHandler ⟨some ⟨401, none⟩, true, "Request failed"⟩ "/jobs").1.count
        (.navigate "/login") = (if strIncludes "/jobs" "/login" then 0 else 1) :=
  interceptor_401_effects ⟨some ⟨401, none⟩, true, "Request failed"⟩ ⟨401, none⟩
    "/jobs" rfl rfl

/-- C5: whatever the failure shape (server reply, unanswered request, or
local setup error), the interceptor settles by re-raising the original
error object unchanged. -/
theorem interceptor_reraises (err : AxiosError) (path : String) :
    (respErrorHandler err path).2 = Except.error err := rfl

/-- A storage state whose token key is present but holds the empty string. -/
def emptyTokenState : ClientState :=
  { token := some "", user := none, authHeader := none, path := "/" }

/-- C6 counterexample: a token key that is present but holds the empty
string refutes "false iff no token key exists" — the key exists, yet
`isAuthenticated` returns false (JS truthiness of the empty string). -/
theorem isAuthenticated_iff_counterexample :
    ¬ (isAuthenticated emptyTokenState = false ↔ emptyTokenState.token = none) := by
  decide

/-- C6 (amended): `isAuthenticated()` returns false iff the token key is
absent or holds the empty string (the double negation `!!token` applies JS
truthiness); it reads only storage. -/
theorem isAuthenticated_false_iff (s : ClientState) :
    isAuthenticated s = false ↔ (s.token = none ∨ s.token = some "") := by
  rcases h : s.token with _ | t <;>
    simp [isAuthenticated, jsTruthy, h]

/-- C7: when the user entry is missing or not valid JSON, `getCurrentUser`
returns the absent value (the parse failure is caught, never propagated —
the model is a total function). -/
theorem getCurrentUser_absent_or_invalid (s : ClientState)
    (h : s.user = none ∨ ∃ str, s.user = some str ∧ jsonParse str = none) :
    getCurrentUser s = none := by
  rcases h with h | ⟨str, hs, hp⟩
  · simp [getCurrentUser, h]
  · by_cases he : str = ""
    · simp [getCurrentUser, hs, he]
    · simp [getCurrentUser, hs, he, hp]

/-- A storage state whose user entry holds a lone opening brace, which is
not valid JSON. -/
def braceUserState : ClientState :=
  { token := none, user := some "\x7b", authHeader := none, path := "/" }

/-- Witness for C7 at the stored value `"\x7b"` (a lone opening brace),
which is not valid JSON. -/
theorem getCurrentUser_absent_or_invalid_witness :
    (braceUserState.user = none ∨
      ∃ str, braceUserState.user = some str ∧ jsonParse str = none) ∧
    getCurrentUser braceUserState = none :=
  ⟨Or.inr ⟨"\x7b", rfl, rfl⟩,
    getCurrentUser_absent_or_invalid _ (Or.inr ⟨"\x7b", rfl, rfl⟩)⟩

/-- C8: `setAuth(t, u)` followed immediately by `getCurrentUser()` returns
exactly `u` — the serialize/parse round trip through storage is the
identity on the stored user value. -/
theorem setAuth_getCurrentUser_roundtrip (t : String) (u : Json)
    (s : ClientState) : getCurrentUser (setAuth t u s) = some u := by
  simp only [setAuth, getCurrentUser]
  rw [if_neg (stringify_ne_empty u), jsonParse_stringify u]

/-- The client invariant of C9: the token entry is present in storage
exactly when the user entry is. -/
def tokenUserCoupled (s : ClientState) : Prop :=
  s.token.isSome = s.user.isSome

/-- C9: every client auth operation — `setAuth`, `clearAuth`, and the 401
branch of the response interceptor — leaves the token and user entries
coupled: both set or both removed, never one without the other. -/
theorem auth_ops_preserve_coupling (s : ClientState) (t : String) (u : Json)
    (err : AxiosError) (resp : ErrResponse) (hresp : err.response = some resp)
    (hstatus : resp.status = 401) :
    tokenUserCoupled (setAuth t u s) ∧ tokenUserCoupled (clearAuth s) ∧
    tokenUserCoupled (applyEffects s (respErrorHandler err s.path).1) := by
  refine ⟨by simp [tokenUserCoupled, setAuth],
    by simp [tokenUserCoupled, clearAuth], ?_⟩
  simp only [respErrorHandler, hresp, hstatus]
  by_cases hp : strIncludes s.path "/login"
  · simp [hp, applyEffects, applyEffect, tokenUserCoupled]
  · simp [hp, applyEffects, applyEffect, tokenUserCoupled]

/-- Witness for C9 at a concrete state holding both entries and a concrete
401 failure. -/
theorem auth_ops_preserve_coupling_witness :
    tokenUserCoupled (setAuth "tok" .null
      { token := some "a", user := some "b", authHeader := none, path := "/jobs" }) ∧
    tokenUserCoupled (clearAuth
      { token := some "a", user := some "b", authHeader := none, path := "/jobs" }) ∧
    tokenUserCoupled (applyEffects
      { token := some "a", user := some "b", authHeader := none, path := "/jobs" }
      (respErrorHandler ⟨some ⟨401, some "Unauthorized"⟩, true, "boom"⟩ "/jobs").1) :=
  auth_ops_preserve_coupling
    { token := some "a", user := some "b", authHeader := none, path := "/jobs" }
    "tok" .null ⟨some ⟨401, some "Unauthorized"⟩, true, "boom"⟩
    ⟨401, some "Unauthorized"⟩ rfl rfl

/-- C10: with `maxRetries = 0` (the only value below 1 in the model) the
loop guard fails immediately: `apiWithRetry` resolves with the undefined
value, with zero invocations of the operation and no waits. -/
theorem retry_zero_max (op : Nat → Except ε α) (delay : Nat) :
    apiWithRetry op 0 delay = (.undef, 0, []) := rfl

end JobPlatform
